import Mathlib

/-!
Shallow embedding of the eth-network monitoring scripts:

* `src/monitoring/python/live_collection/block_metrics_ws.py`
* `src/monitoring/python/live_collection/tx_metrics_ws.py`
* `src/monitoring/python/ws_collection/mempool_metrics_ws.py`

Python floats that only ever hold exact small ratios (percentages) are
modelled as `ℚ`; Python's arbitrary-precision non-negative integers as
`Nat`, counters that may go negative as `Int`.  Asynchronous message
handling is modelled as explicit state transitions driven by lists of
inbound messages.
-/

namespace EthNetwork

/-! ## `hex_to_int` (identical helper in all three scripts)

Python:
```
def hex_to_int(value):
    if value is None: return None
    if isinstance(value, int): return value
    if isinstance(value, str):
        value = value.strip()
        if value.startswith(("0x", "0X")): return int(value, 16)
        if value.isdigit(): return int(value)
    return None
```
The JSON fields it is applied to are hex strings or null, so the input is
modelled as `Option String`.  A malformed hex string makes Python's
`int(value, 16)` raise (killing the session via the outer handler); it is
modelled as `none` here and never arises in the claims, which use
well-formed hex only. -/

def hexDigitVal (c : Char) : Option Nat :=
  if '0' ≤ c ∧ c ≤ '9' then some (c.toNat - '0'.toNat)
  else if 'a' ≤ c ∧ c ≤ 'f' then some (c.toNat - 'a'.toNat + 10)
  else if 'A' ≤ c ∧ c ≤ 'F' then some (c.toNat - 'A'.toNat + 10)
  else none

def parseHexDigits (cs : List Char) : Option Nat :=
  if cs.isEmpty then none
  else cs.foldl (fun acc c =>
    match acc, hexDigitVal c with
    | some a, some d => some (a * 16 + d)
    | _, _ => none) (some 0)

def parseDecDigits (cs : List Char) : Option Nat :=
  if cs.isEmpty then none
  else cs.foldl (fun acc c =>
    match acc with
    | some a => if c.isDigit then some (a * 10 + (c.toNat - '0'.toNat)) else none
    | none => none) (some 0)

/-- Python `str.strip()`: drop whitespace from both ends.  (Characterwise
so that the kernel can evaluate it; core `String.trim` is equivalent but
does not reduce.) -/
def stripChars (cs : List Char) : List Char :=
  ((cs.dropWhile Char.isWhitespace).reverse.dropWhile Char.isWhitespace).reverse

/-- Python `str.startswith(p)`, characterwise. -/
def startsWithChars (cs p : List Char) : Bool :=
  cs.take p.length == p

def hex_to_int (value : Option String) : Option Nat :=
  match value with
  | none => none
  | some s =>
    let cs := stripChars s.toList
    if startsWithChars cs ['0', 'x'] ∨ startsWithChars cs ['0', 'X'] then
      parseHexDigits (cs.drop 2)
    else if cs.all Char.isDigit ∧ ¬ cs.isEmpty then
      parseDecDigits cs
    else none

/-- Python `a or b` on two optional strings: `None` and the empty string
are falsy, any other string is truthy. -/
def pyOrStr (a b : Option String) : Option String :=
  match a with
  | some s => if s.toList.isEmpty then b else some s
  | none => b

/-! ## Block monitor (`block_metrics_ws.py`)

Per-block aggregation dict created in `monitor_node` (lines 286-297) and
the record built from it by `build_block_record` (lines 138-190). -/

/-- Fields of an `eth_getTransactionReceipt` result that the block monitor
reads (lines 341-349), as raw JSON hex strings / null. -/
structure Receipt where
  status : Option String
  gasUsed : Option String
  effectiveGasPrice : Option String
  gasPrice : Option String
deriving DecidableEq

/-- `success = status == "0x1"` (line 343). -/
def receiptSuccess (r : Receipt) : Bool :=
  r.status == some "0x1"

/-- `gas_used_tx = hex_to_int(receipt.get("gasUsed")) or 0` (line 345). -/
def receiptGasUsed (r : Receipt) : Nat :=
  (hex_to_int r.gasUsed).getD 0

/-- `effective_gas_price = hex_to_int(receipt.get("effectiveGasPrice") or
receipt.get("gasPrice")) or 0` (lines 346-349). -/
def receiptEffectiveGasPrice (r : Receipt) : Nat :=
  (hex_to_int (pyOrStr r.effectiveGasPrice r.gasPrice)).getD 0

/-- `fee = gas_used_tx * effective_gas_price` (line 351). -/
def receiptFee (r : Receipt) : Nat :=
  receiptGasUsed r * receiptEffectiveGasPrice r

/-- The per-block aggregation dict `agg` (lines 286-297).
`pending_receipts` is a Python int that is decremented, hence `Int`. -/
structure BlockAgg where
  block_hash : String
  block_number : Nat
  block_time_iso : String
  block_size_kb : Option ℚ
  gas_used : Nat
  gas_limit : Nat
  total_transactions : Nat
  pending_receipts : Int
  success_count : Nat
  fee_total_wei : Nat
deriving DecidableEq

/-- The flattened final JSON record of `build_block_record`:
`block_number / hash / timestamp / block.size_kb / block.gas.used /
block.gas.limit / block.gas.used_percentage / transactions.count /
transactions.success.successful / transactions.success.failed /
transactions.success.success_rate_percent / transactions.fees.total_wei`. -/
structure BlockRecord where
  block_number : Nat
  hash : String
  timestamp : String
  size_kb : Option ℚ
  gas_used : Nat
  gas_limit : Nat
  used_percentage : ℚ
  tx_count : Nat
  successful : Nat
  failed : Nat
  success_rate_percent : ℚ
  fee_total_wei : Nat
deriving DecidableEq

/-- `build_block_record` (lines 138-190).  `max(total_tx - success_count, 0)`
is exactly `Nat` subtraction. -/
def build_block_record (agg : BlockAgg) : BlockRecord :=
  let gas_used := agg.gas_used
  let gas_limit := agg.gas_limit
  let total_tx := agg.total_transactions
  let success_count := agg.success_count
  let fee_total_wei := agg.fee_total_wei
  let gas_used_percentage : ℚ :=
    if gas_limit > 0 then (gas_used : ℚ) / (gas_limit : ℚ) * 100 else 0
  let success_rate : ℚ :=
    if total_tx > 0 then (success_count : ℚ) / (total_tx : ℚ) * 100 else 0
  let failed_count := total_tx - success_count
  { block_number := agg.block_number
    hash := agg.block_hash
    timestamp := agg.block_time_iso
    size_kb := agg.block_size_kb
    gas_used := gas_used
    gas_limit := gas_limit
    used_percentage := gas_used_percentage
    tx_count := total_tx
    successful := success_count
    failed := failed_count
    success_rate_percent := success_rate
    fee_total_wei := fee_total_wei }

/-- The aggregation dict as created for a freshly fetched block
(lines 286-297): `pending_receipts` starts at `total_transactions`,
`success_count` and `fee_total_wei` start at 0.  `gas_used` / `gas_limit`
are the values of `hex_to_int(block.get(...)) or 0`. -/
def mkBlockAgg (block_hash : String) (block_number : Nat) (block_time_iso : String)
    (block_size_kb : Option ℚ) (gas_used gas_limit : Nat) (total_tx : Nat) : BlockAgg :=
  { block_hash := block_hash
    block_number := block_number
    block_time_iso := block_time_iso
    block_size_kb := block_size_kb
    gas_used := gas_used
    gas_limit := gas_limit
    total_transactions := total_tx
    pending_receipts := (total_tx : Int)
    success_count := 0
    fee_total_wei := 0 }

/-- View of `monitor_node`'s state restricted to one block hash:
the `blocks_in_progress` entry (if present) and the records handed to
`writer.add_record`, in order. -/
structure BlockMonState where
  inProgress : Option BlockAgg
  emitted : List BlockRecord
deriving DecidableEq

/-- Creation of a block aggregate (lines 286-311): the aggregate is stored;
if `total_tx == 0` it is finalized immediately (record written, aggregate
removed), otherwise receipts are requested and it stays in progress. -/
def startBlock (block_hash : String) (block_number : Nat) (block_time_iso : String)
    (block_size_kb : Option ℚ) (gas_used gas_limit : Nat) (total_tx : Nat) : BlockMonState :=
  let agg := mkBlockAgg block_hash block_number block_time_iso block_size_kb
    gas_used gas_limit total_tx
  if total_tx = 0 then
    { inProgress := none, emitted := [build_block_record agg] }
  else
    { inProgress := some agg, emitted := [] }

/-- Receipt application to the aggregate (lines 353-356). -/
def applyReceiptAgg (agg : BlockAgg) (r : Receipt) : BlockAgg :=
  { agg with
    success_count := agg.success_count + (if receiptSuccess r then 1 else 0)
    fee_total_wei := agg.fee_total_wei + receiptFee r
    pending_receipts := agg.pending_receipts - 1 }

/-- One dispatched correlated receipt response for this block
(lines 333-379).  `result = none` models a null JSON-RPC result: the guard
`elif kind == "receipt" and result:` fails and nothing at all happens to
the aggregate.  An absent aggregate (already finalized or unknown) is
skipped (lines 336-339).  Otherwise the receipt is applied and, once
`pending_receipts <= 0`, the record is written and the aggregate removed
(lines 359-379). -/
def applyReceiptMsg (st : BlockMonState) (result : Option Receipt) : BlockMonState :=
  match result with
  | none => st
  | some r =>
    match st.inProgress with
    | none => st
    | some agg =>
      let agg' := applyReceiptAgg agg r
      if agg'.pending_receipts ≤ 0 then
        { inProgress := none, emitted := st.emitted ++ [build_block_record agg'] }
      else
        { st with inProgress := some agg' }

def processReceipts (st : BlockMonState) (msgs : List (Option Receipt)) : BlockMonState :=
  msgs.foldl applyReceiptMsg st

/-- Pure fold of receipt application on the aggregate alone. -/
def applyReceiptsAgg (agg : BlockAgg) (rs : List Receipt) : BlockAgg :=
  rs.foldl applyReceiptAgg agg

/-! ## Correlation table (`outstanding` dict, all three scripts)

`outstanding: Dict[int, (kind, metadata)]`, modelled as an association
list with unique keys; `dict.pop` removes every entry with the key.
Handling of a message with both an `id` and a `result`
(`block_metrics_ws.py` lines 244-253, `tx_metrics_ws.py` lines 234-247):
a reserved subscription id records the subscription id and nothing else;
otherwise a present id is popped and its `(kind, metadata)` is dispatched
together with the result; an absent id is discarded silently. -/

def handleIdMessage {E R : Type} (reserved : List Nat) (table : List (Nat × E))
    (msgId : Nat) (result : R) : List (Nat × E) × Option (E × R) :=
  if msgId ∈ reserved then (table, none)
  else
    match table.lookup msgId with
    | some e => (table.filter fun p => p.1 != msgId, some (e, result))
    | none => (table, none)

/-! ## Global sequence counter (`tx_metrics_ws.py`)

`global_counter = {"value": 0}` (line 574) is shared by all sessions.
Each finalized transaction does `global_counter["value"] += 1;
total_tx_number = global_counter["value"]` (lines 377-378); the run is a
list of finalization events (tagged by session, which the counter
ignores). -/

def assignSequences {σ : Type} : Nat → List σ → List Nat
  | _, [] => []
  | c, _ :: es => (c + 1) :: assignSequences (c + 1) es

/-! ## Mempool monitor (`mempool_metrics_ws.py`) -/

/-- `NodeMempoolState` dataclass (lines 66-73); `pending` is a Python set. -/
structure NodeMempoolState where
  name : String
  pending : Finset String
  new_pending_since_last : Nat
  confirmed_since_last : Nat
  total_seen_pending : Nat
  total_confirmed : Nat
deriving DecidableEq

/-- Dataclass defaults: empty pending set, all counters 0. -/
def NodeMempoolState.init (name : String) : NodeMempoolState :=
  { name := name, pending := ∅, new_pending_since_last := 0,
    confirmed_since_last := 0, total_seen_pending := 0, total_confirmed := 0 }

/-- The dict returned by `snapshot_and_reset_interval` (lines 75-88);
`net_pending_delta` is a Python subtraction, hence `Int`. -/
structure MempoolSnapshot where
  mempool_size : Nat
  new_pending : Nat
  confirmed : Nat
  net_pending_delta : Int
  total_seen_pending : Nat
  total_confirmed : Nat
deriving DecidableEq

/-- `snapshot_and_reset_interval` (lines 75-88): build the interval
metrics dict, then zero the two per-interval counters.  Returns the dict
together with the mutated state. -/
def snapshot_and_reset_interval (st : NodeMempoolState) :
    MempoolSnapshot × NodeMempoolState :=
  ({ mempool_size := st.pending.card
     new_pending := st.new_pending_since_last
     confirmed := st.confirmed_since_last
     net_pending_delta :=
       (st.new_pending_since_last : Int) - (st.confirmed_since_last : Int)
     total_seen_pending := st.total_seen_pending
     total_confirmed := st.total_confirmed },
   { st with new_pending_since_last := 0, confirmed_since_last := 0 })

/-- A `newPendingTransactions` notification carrying hash `h`
(lines 198-205): only a hash not already pending is inserted and counted. -/
def observePending (st : NodeMempoolState) (h : String) : NodeMempoolState :=
  if h ∈ st.pending then st
  else
    { st with
        pending := insert h st.pending
        new_pending_since_last := st.new_pending_since_last + 1
        total_seen_pending := st.total_seen_pending + 1 }

/-- One transaction hash of a fetched block (lines 177-181): a currently
pending hash is removed and counted as confirmed, any other hash is
ignored. -/
def confirmHash (st : NodeMempoolState) (h : String) : NodeMempoolState :=
  if h ∈ st.pending then
    { st with
        pending := st.pending.erase h
        confirmed_since_last := st.confirmed_since_last + 1
        total_confirmed := st.total_confirmed + 1 }
  else st

/-- The loop over a fetched block's transaction hashes (lines 171-181). -/
def processBlock (st : NodeMempoolState) (hs : List String) : NodeMempoolState :=
  hs.foldl confirmHash st

/-- The operations that mutate a `NodeMempoolState` during a run. -/
inductive MempoolOp where
  | observe (h : String)
  | includedBlock (hs : List String)
  | snapshot
deriving DecidableEq

def applyOp (st : NodeMempoolState) : MempoolOp → NodeMempoolState
  | .observe h => observePending st h
  | .includedBlock hs => processBlock st hs
  | .snapshot => (snapshot_and_reset_interval st).2

def runOps (st : NodeMempoolState) (ops : List MempoolOp) : NodeMempoolState :=
  ops.foldl applyOp st

/-- The invariant relating the cumulative counters to the pending set. -/
def seenInvariant (st : NodeMempoolState) : Prop :=
  st.total_seen_pending = st.pending.card + st.total_confirmed

instance (st : NodeMempoolState) : Decidable (seenInvariant st) := by
  unfold seenInvariant; infer_instance

/-! ## Failover supervisor and endpoint discovery

`monitor_with_failover` (block monitor lines 416-481, tx monitor lines
467-535): with an empty endpoint list it prints
"No endpoints provided to monitor_with_failover()" and returns normally;
otherwise it starts sessions round-robin.  The wall-clock loop is
abstracted by `starts`, the number of session (re)starts the duration
budget allows; the value returned is the list of endpoints started, and
`Except.error` would model an uncaught exception (there is none). -/

def monitor_with_failover (endpoints : List (String × String)) (starts : Nat) :
    Except String (List (String × String)) :=
  if endpoints.isEmpty then
    Except.ok []
  else
    Except.ok ((List.range starts).map fun i =>
      endpoints.getD (i % endpoints.length) ("", ""))

/-- One entry of `eth-network-services.json` as read by `main_async`
(block monitor lines 502-516); `none` models null / missing / non-string
fields, and non-dict entries are simply absent from the list. -/
structure ServiceEntry where
  name : Option String
  ws : Option String
deriving DecidableEq

/-- Endpoint filtering of `main_async` (block monitor lines 504-516):
keep entries whose name starts with "el-" and whose stripped ws address
is non-empty. -/
def collectEndpoints (entries : List ServiceEntry) : List (String × String) :=
  entries.filterMap fun e =>
    match e.name, e.ws with
    | some n, some w =>
      if startsWithChars n.toList ['e', 'l', '-'] then
        if (stripChars w.toList).isEmpty then none
        else some (n, String.mk (stripChars w.toList))
      else none
    | _, _ => none

/-- `main_async` of the block monitor (lines 502-529): raises
`RuntimeError` when no valid endpoint was discovered, otherwise proceeds
to the supervisor with the discovered endpoints. -/
def main_async_discover (entries : List ServiceEntry) :
    Except String (List (String × String)) :=
  let endpoints := collectEndpoints entries
  if endpoints.isEmpty then
    Except.error "No valid EL WebSocket endpoints found in eth-network-services.json"
  else
    Except.ok endpoints

/-! ## Helper lemmas about the block-aggregate state machine -/

/-- Folding receipts over an aggregate adds the success count, adds the
fees, subtracts the length from `pending_receipts`, and touches nothing
else. -/
theorem applyReceiptsAgg_eq (agg : BlockAgg) (rs : List Receipt) :
    applyReceiptsAgg agg rs =
      { agg with
        success_count := agg.success_count + rs.countP (fun r => receiptSuccess r)
        fee_total_wei := agg.fee_total_wei + (rs.map receiptFee).sum
        pending_receipts := agg.pending_receipts - rs.length } := by
  induction rs generalizing agg with
  | nil => simp [applyReceiptsAgg]
  | cons r rs ih =>
    simp only [applyReceiptsAgg, List.foldl_cons] at *
    rw [ih (applyReceiptAgg agg r)]
    simp only [applyReceiptAgg, List.countP_cons, List.map_cons, List.sum_cons,
      List.length_cons, BlockAgg.mk.injEq, and_true, true_and]
    refine ⟨by omega, by omega, by omega⟩

theorem applyReceiptMsg_noProgress (em : List BlockRecord) (m : Option Receipt) :
    applyReceiptMsg ⟨none, em⟩ m = ⟨none, em⟩ := by
  cases m <;> rfl

/-- Once the aggregate is gone, further receipt responses change nothing:
neither the (absent) aggregate nor the emitted records. -/
theorem processReceipts_noProgress (em : List BlockRecord) (msgs : List (Option Receipt)) :
    processReceipts ⟨none, em⟩ msgs = ⟨none, em⟩ := by
  induction msgs with
  | nil => rfl
  | cons m msgs ih =>
    simp only [processReceipts, List.foldl_cons, applyReceiptMsg_noProgress]
    exact ih

/-- As long as strictly fewer non-null receipt responses have arrived than
`pending_receipts` requires, the aggregate stays in progress (with the
non-null receipts folded in) and nothing is emitted. -/
theorem processReceipts_in_progress (agg : BlockAgg) (em : List BlockRecord)
    (msgs : List (Option Receipt))
    (h : ((msgs.countP fun m => m.isSome) : Int) < agg.pending_receipts) :
    processReceipts ⟨some agg, em⟩ msgs =
      ⟨some (applyReceiptsAgg agg (msgs.filterMap id)), em⟩ := by
  induction msgs generalizing agg with
  | nil => simp [processReceipts, applyReceiptsAgg]
  | cons m msgs ih =>
    cases m with
    | none =>
      have hstep : applyReceiptMsg ⟨some agg, em⟩ none = ⟨some agg, em⟩ := rfl
      simp only [processReceipts, List.foldl_cons, hstep, List.filterMap_cons]
      exact ih agg (by simpa [List.countP_cons] using h)
    | some r =>
      have hcnt : ((msgs.countP fun m => m.isSome) : Int) + 1 < agg.pending_receipts := by
        have := h
        simp only [List.countP_cons, Option.isSome_some, if_pos] at this
        omega
      have hnn : (0 : Int) ≤ (msgs.countP fun m => m.isSome) := Int.ofNat_nonneg _
      have hpend : ¬ (applyReceiptAgg agg r).pending_receipts ≤ 0 := by
        simp only [applyReceiptAgg]
        omega
      have hstep : applyReceiptMsg ⟨some agg, em⟩ (some r) =
          ⟨some (applyReceiptAgg agg r), em⟩ := by
        simp [applyReceiptMsg, hpend]
      simp only [processReceipts, List.foldl_cons, hstep, List.filterMap_cons]
      have ih' := ih (applyReceiptAgg agg r)
        (by simp only [applyReceiptAgg]; omega)
      simpa [applyReceiptsAgg, processReceipts] using ih'

/-- When exactly `pending_receipts` non-null receipts arrive (in any
order), the aggregate completes: exactly one record is written and the
aggregate is removed. -/
theorem processReceipts_completes (agg : BlockAgg) (em : List BlockRecord)
    (rs : List Receipt) (hlen : agg.pending_receipts = (rs.length : Int))
    (hne : rs ≠ []) :
    processReceipts ⟨some agg, em⟩ (rs.map some) =
      ⟨none, em ++ [build_block_record (applyReceiptsAgg agg rs)]⟩ := by
  induction rs generalizing agg em with
  | nil => exact absurd rfl hne
  | cons r rs ih =>
    by_cases hrs : rs = []
    · subst hrs
      have hpend : (applyReceiptAgg agg r).pending_receipts ≤ 0 := by
        simp only [applyReceiptAgg]
        simp only [List.length_cons, List.length_nil] at hlen
        omega
      have hstep : applyReceiptMsg ⟨some agg, em⟩ (some r) =
          ⟨none, em ++ [build_block_record (applyReceiptAgg agg r)]⟩ := by
        simp [applyReceiptMsg, hpend]
      simp only [List.map_cons, List.map_nil, processReceipts, List.foldl_cons,
        List.foldl_nil, hstep]
      rfl
    · have hpos : 0 < rs.length := List.length_pos.mpr hrs
      have hpend : ¬ (applyReceiptAgg agg r).pending_receipts ≤ 0 := by
        simp only [applyReceiptAgg]
        simp only [List.length_cons] at hlen
        omega
      have hstep : applyReceiptMsg ⟨some agg, em⟩ (some r) =
          ⟨some (applyReceiptAgg agg r), em⟩ := by
        simp [applyReceiptMsg, hpend]
      simp only [List.map_cons, processReceipts, List.foldl_cons, hstep]
      have ih' := ih (applyReceiptAgg agg r) em
        (by simp only [applyReceiptAgg]; simp only [List.length_cons] at hlen; omega)
        hrs
      simpa [applyReceiptsAgg, processReceipts] using ih'

theorem countP_isSome_map_some {α : Type} (l : List α) :
    ((l.map some).countP fun m => m.isSome) = l.length := by
  induction l with
  | nil => rfl
  | cons a l ih => simp [List.countP_cons, ih]

theorem filterMap_id_map_some {α : Type} (l : List α) :
    (l.map some).filterMap id = l := by
  induction l with
  | nil => rfl
  | cons a l ih => simp [List.filterMap_cons, ih]

/-- A successful receipt for 21000 gas at effective price 10 wei. -/
def rcptOk : Receipt :=
  { status := some "0x1", gasUsed := some "0x5208",
    effectiveGasPrice := some "0xa", gasPrice := none }

/-- A failed receipt for 21000 gas at effective price 10 wei. -/
def rcptFail : Receipt :=
  { status := some "0x0", gasUsed := some "0x5208",
    effectiveGasPrice := some "0xa", gasPrice := none }

/-- C2: a block aggregate created with `n > 0` transactions completes
exactly once, after exactly `n` receipts: every strict prefix of the
receipt stream leaves the aggregate in progress with nothing emitted, the
full stream emits exactly one record and removes the aggregate, and any
permutation of the receipt stream yields the identical emitted record;
once the aggregate is gone nothing further changes, so completion cannot
recur.  A block aggregate created with `0` transactions completes
immediately at creation and its record has `success_rate_percent = 0`. -/
theorem block_aggregate_lifecycle
    (bh : String) (bn : Nat) (iso : String) (sz : Option ℚ) (gu gl : Nat)
    (rs : List Receipt) (hpos : rs ≠ []) :
    ((∀ k, k < rs.length →
        processReceipts (startBlock bh bn iso sz gu gl rs.length) ((rs.take k).map some)
          = ⟨some (applyReceiptsAgg (mkBlockAgg bh bn iso sz gu gl rs.length) (rs.take k)), []⟩)
      ∧ processReceipts (startBlock bh bn iso sz gu gl rs.length) (rs.map some)
          = ⟨none, [build_block_record
              (applyReceiptsAgg (mkBlockAgg bh bn iso sz gu gl rs.length) rs)]⟩
      ∧ (∀ rs', rs.Perm rs' →
          processReceipts (startBlock bh bn iso sz gu gl rs.length) (rs'.map some)
            = processReceipts (startBlock bh bn iso sz gu gl rs.length) (rs.map some)))
    ∧ (∀ (st : BlockMonState) (msgs : List (Option Receipt)),
        st.inProgress = none → processReceipts st msgs = st)
    ∧ startBlock bh bn iso sz gu gl 0
        = ⟨none, [build_block_record (mkBlockAgg bh bn iso sz gu gl 0)]⟩
    ∧ (build_block_record (mkBlockAgg bh bn iso sz gu gl 0)).success_rate_percent = 0 := by
  have hlen0 : rs.length ≠ 0 := fun h => hpos (List.length_eq_zero.mp h)
  have hstart : startBlock bh bn iso sz gu gl rs.length
      = ⟨some (mkBlockAgg bh bn iso sz gu gl rs.length), []⟩ := by
    simp [startBlock, hlen0]
  have hpend : (mkBlockAgg bh bn iso sz gu gl rs.length).pending_receipts
      = (rs.length : Int) := rfl
  refine ⟨⟨?_, ?_, ?_⟩, ?_, ?_, ?_⟩
  · intro k hk
    rw [hstart]
    rw [processReceipts_in_progress _ _ _
      (by rw [hpend, countP_isSome_map_some, List.length_take]; omega)]
    rw [filterMap_id_map_some]
  · rw [hstart, processReceipts_completes _ _ _ hpend hpos]
    rfl
  · intro rs' hperm
    have hne' : rs' ≠ [] := by
      intro h
      exact hpos (List.eq_nil_of_length_eq_zero
        (by rw [hperm.length_eq, h, List.length_nil]))
    rw [hstart, processReceipts_completes _ _ _ hpend hpos,
      processReceipts_completes _ _ _ (by rw [hpend, hperm.length_eq]) hne']
    rw [applyReceiptsAgg_eq, applyReceiptsAgg_eq, hperm.length_eq,
      hperm.countP_eq, (hperm.map receiptFee).sum_eq]
  · intro st msgs hnone
    obtain ⟨ip, em⟩ := st
    cases ip with
    | none => exact processReceipts_noProgress em msgs
    | some a => simp at hnone
  · rfl
  · rfl

/-- Witness for C2 at a concrete two-transaction block: the full receipt
stream emits exactly the final record and removes the aggregate. -/
theorem block_aggregate_lifecycle_witness :
    processReceipts (startBlock "0xb" 5 "t" none 42000 60000 2)
        ([rcptOk, rcptFail].map some)
      = ⟨none, [build_block_record
          (applyReceiptsAgg (mkBlockAgg "0xb" 5 "t" none 42000 60000 2)
            [rcptOk, rcptFail])]⟩ :=
  (block_aggregate_lifecycle "0xb" 5 "t" none 42000 60000 [rcptOk, rcptFail]
    (by decide)).1.2.1

/-- C3: a block with 2 transactions whose receipts are
`{status success, gasUsed 21000, effectiveGasPrice 10}` and
`{status fail, gasUsed 21000, effectiveGasPrice 10}` yields one emitted
record with `fee_total_wei = 420000`, `success_count = 1` and
`success_rate_percent = 50`. -/
theorem example_block_record_values :
    (processReceipts (startBlock "0xblock" 5 "2024-01-01" none 42000 60000 2)
        [some rcptOk, some rcptFail]).emitted.map
      (fun r => (r.fee_total_wei, r.successful, r.success_rate_percent))
      = [(420000, 1, (50 : ℚ))] := by
  have hstart : startBlock "0xblock" 5 "2024-01-01" none 42000 60000 2
      = ⟨some (mkBlockAgg "0xblock" 5 "2024-01-01" none 42000 60000 2), []⟩ := rfl
  have hmap : ([some rcptOk, some rcptFail] : List (Option Receipt))
      = [rcptOk, rcptFail].map some := rfl
  have hagg : applyReceiptsAgg (mkBlockAgg "0xblock" 5 "2024-01-01" none 42000 60000 2)
      [rcptOk, rcptFail]
      = { mkBlockAgg "0xblock" 5 "2024-01-01" none 42000 60000 2 with
          success_count := 1
          fee_total_wei := 420000
          pending_receipts := 0 } := by decide
  rw [hstart, hmap, processReceipts_completes _ _ _ rfl (by decide), hagg]
  norm_num [build_block_record, mkBlockAgg]

/-- C4: at emission time, `used_percentage` is 0 when the gas limit is 0
and exactly `used/limit*100` otherwise, and `success_rate_percent` is 0
when the transaction count is 0 and exactly `success/total*100`
otherwise. -/
theorem record_percentages (agg : BlockAgg) :
    (agg.gas_limit = 0 → (build_block_record agg).used_percentage = 0)
    ∧ (agg.gas_limit ≠ 0 →
        (build_block_record agg).used_percentage
          = (agg.gas_used : ℚ) / (agg.gas_limit : ℚ) * 100)
    ∧ (agg.total_transactions = 0 →
        (build_block_record agg).success_rate_percent = 0)
    ∧ (agg.total_transactions ≠ 0 →
        (build_block_record agg).success_rate_percent
          = (agg.success_count : ℚ) / (agg.total_transactions : ℚ) * 100) := by
  refine ⟨fun h => ?_, fun h => ?_, fun h => ?_, fun h => ?_⟩ <;>
    simp [build_block_record, h, Nat.pos_of_ne_zero]

/-- Witness for C4 at two concrete aggregates, one with zero denominators
and one with non-zero denominators. -/
theorem record_percentages_witness :
    (build_block_record (mkBlockAgg "0xa" 1 "t" none 5 0 0)).used_percentage = 0
    ∧ (build_block_record (mkBlockAgg "0xa" 1 "t" none 5 0 0)).success_rate_percent = 0
    ∧ (build_block_record (mkBlockAgg "0xa" 1 "t" none 21000 30000 4)).used_percentage
        = ((mkBlockAgg "0xa" 1 "t" none 21000 30000 4).gas_used : ℚ)
          / ((mkBlockAgg "0xa" 1 "t" none 21000 30000 4).gas_limit : ℚ) * 100
    ∧ (build_block_record (mkBlockAgg "0xa" 1 "t" none 21000 30000 4)).success_rate_percent
        = ((mkBlockAgg "0xa" 1 "t" none 21000 30000 4).success_count : ℚ)
          / ((mkBlockAgg "0xa" 1 "t" none 21000 30000 4).total_transactions : ℚ) * 100 :=
  ⟨(record_percentages (mkBlockAgg "0xa" 1 "t" none 5 0 0)).1 (by decide),
   (record_percentages (mkBlockAgg "0xa" 1 "t" none 5 0 0)).2.2.1 (by decide),
   (record_percentages (mkBlockAgg "0xa" 1 "t" none 21000 30000 4)).2.1 (by decide),
   (record_percentages (mkBlockAgg "0xa" 1 "t" none 21000 30000 4)).2.2.2 (by decide)⟩

/-- C1 counterexample: `monitor_with_failover` invoked with an empty
endpoint list returns normally (`Except.ok`, zero sessions started)
rather than raising or exiting, so an empty endpoint list is not a hard
error of the supervisor itself: it is a logged no-op return. -/
theorem failover_empty_counterexample :
    monitor_with_failover [] 3 = Except.ok [] := rfl

/-- C1 amended: `monitor_with_failover` on an empty endpoint list reports
and returns normally without starting any session (it never proceeds to
monitor with zero endpoints, but it does not raise); the fatal, reported
configuration error for an empty discovered endpoint list is raised
earlier, by `main_async`, which errors out whenever endpoint discovery
yields nothing and otherwise hands the supervisor a non-empty list. -/
theorem failover_empty_noop_and_discovery_fatal :
    (∀ starts : Nat, monitor_with_failover [] starts = Except.ok [])
    ∧ (∀ entries : List ServiceEntry, collectEndpoints entries = [] →
        main_async_discover entries = Except.error
          "No valid EL WebSocket endpoints found in eth-network-services.json")
    ∧ (∀ (entries : List ServiceEntry) (eps : List (String × String)),
        main_async_discover entries = Except.ok eps →
        eps = collectEndpoints entries ∧ eps ≠ []) := by
  refine ⟨fun starts => rfl, fun entries h => by simp [main_async_discover, h], ?_⟩
  intro entries eps h
  by_cases hc : (collectEndpoints entries).isEmpty
  · simp [main_async_discover, hc] at h
  · simp only [main_async_discover, hc, if_neg, Bool.false_eq_true,
      not_false_eq_true, Except.ok.injEq] at h
    subst h
    exact ⟨rfl, fun hnil => hc (by simp [hnil])⟩

/-- Witness for C1's amended statement at concrete inputs: a list with
only a consensus-layer entry discovers no endpoints and is fatal in
`main_async`; a valid el- entry discovers a non-empty endpoint list. -/
theorem failover_empty_noop_witness :
    monitor_with_failover [] 2 = Except.ok []
    ∧ main_async_discover [{ name := some "cl-1-node", ws := some "1.2.3.4:80" }]
        = Except.error
          "No valid EL WebSocket endpoints found in eth-network-services.json"
    ∧ ([("el-1-node", "1.2.3.4:80")] : List (String × String)) ≠ [] :=
  ⟨failover_empty_noop_and_discovery_fatal.1 2,
   failover_empty_noop_and_discovery_fatal.2.1
     [{ name := some "cl-1-node", ws := some "1.2.3.4:80" }] (by decide),
   (failover_empty_noop_and_discovery_fatal.2.2
     [{ name := some "el-1-node", ws := some " 1.2.3.4:80 " }]
     [("el-1-node", "1.2.3.4:80")] rfl).2⟩

/-- The counter reading after each finalization: starting from counter
value `c`, the events are assigned `c+1, c+2, ...`. -/
theorem assignSequences_eq_range {σ : Type} (c : Nat) (events : List σ) :
    assignSequences c events = List.range' (c + 1) events.length := by
  induction events generalizing c with
  | nil => rfl
  | cons e events ih =>
    simp [assignSequences, List.range'_succ, ih]

/-- C5: the global sequence counter, starting at 0 as in `main_async`,
assigns to the finalized transactions of a run — an arbitrary
interleaving of finalization events from any sessions — exactly the
sequence `1, 2, ..., k`: gap-free, strictly increasing, with no
repeats. -/
theorem global_sequence_gap_free {σ : Type} (events : List σ) :
    assignSequences 0 events = List.range' 1 events.length
    ∧ List.Pairwise (fun a b => a < b) (assignSequences 0 events)
    ∧ (assignSequences 0 events).Nodup := by
  have h := assignSequences_eq_range 0 events
  rw [Nat.zero_add] at h
  refine ⟨h, ?_, ?_⟩
  · rw [h]
    exact List.pairwise_lt_range' 1 events.length
  · rw [h]
    exact List.nodup_range' _ _

/-! ## Helper lemmas about the mempool state machine -/

theorem observePending_totals_mono (st : NodeMempoolState) (h : String) :
    st.total_seen_pending ≤ (observePending st h).total_seen_pending
    ∧ st.total_confirmed ≤ (observePending st h).total_confirmed := by
  unfold observePending
  split <;> simp

theorem confirmHash_totals_mono (st : NodeMempoolState) (h : String) :
    st.total_seen_pending ≤ (confirmHash st h).total_seen_pending
    ∧ st.total_confirmed ≤ (confirmHash st h).total_confirmed := by
  unfold confirmHash
  split <;> simp

theorem processBlock_totals_mono (st : NodeMempoolState) (hs : List String) :
    st.total_seen_pending ≤ (processBlock st hs).total_seen_pending
    ∧ st.total_confirmed ≤ (processBlock st hs).total_confirmed := by
  induction hs generalizing st with
  | nil => exact ⟨le_refl _, le_refl _⟩
  | cons h hs ih =>
    have h1 := confirmHash_totals_mono st h
    have h2 := ih (confirmHash st h)
    exact ⟨le_trans h1.1 h2.1, le_trans h1.2 h2.2⟩

theorem applyOp_totals_mono (st : NodeMempoolState) (op : MempoolOp) :
    st.total_seen_pending ≤ (applyOp st op).total_seen_pending
    ∧ st.total_confirmed ≤ (applyOp st op).total_confirmed := by
  cases op with
  | observe h => exact observePending_totals_mono st h
  | includedBlock hs => exact processBlock_totals_mono st hs
  | snapshot => exact ⟨le_refl _, le_refl _⟩

theorem seenInvariant_observePending (st : NodeMempoolState) (h : String)
    (hi : seenInvariant st) : seenInvariant (observePending st h) := by
  unfold observePending
  by_cases hm : h ∈ st.pending
  · simpa [hm] using hi
  · unfold seenInvariant at *
    simp [hm, Finset.card_insert_of_not_mem hm]
    omega

theorem seenInvariant_confirmHash (st : NodeMempoolState) (h : String)
    (hi : seenInvariant st) : seenInvariant (confirmHash st h) := by
  unfold confirmHash
  by_cases hm : h ∈ st.pending
  · have hc : 0 < st.pending.card := Finset.card_pos.mpr ⟨h, hm⟩
    unfold seenInvariant at *
    simp [hm, Finset.card_erase_of_mem hm]
    omega
  · simpa [hm] using hi

theorem seenInvariant_processBlock (st : NodeMempoolState) (hs : List String)
    (hi : seenInvariant st) : seenInvariant (processBlock st hs) := by
  induction hs generalizing st with
  | nil => exact hi
  | cons h hs ih => exact ih (confirmHash st h) (seenInvariant_confirmHash st h hi)

theorem seenInvariant_applyOp (st : NodeMempoolState) (op : MempoolOp)
    (hi : seenInvariant st) : seenInvariant (applyOp st op) := by
  cases op with
  | observe h => exact seenInvariant_observePending st h hi
  | includedBlock hs => exact seenInvariant_processBlock st hs hi
  | snapshot => simpa [applyOp, snapshot_and_reset_interval, seenInvariant] using hi

theorem seenInvariant_runOps (st : NodeMempoolState) (ops : List MempoolOp)
    (hi : seenInvariant st) : seenInvariant (runOps st ops) := by
  induction ops generalizing st with
  | nil => exact hi
  | cons op ops ih => exact ih (applyOp st op) (seenInvariant_applyOp st op hi)

/-- C6: re-announcing a hash that is still pending changes nothing at
all, and processing a fetched block none of whose hashes are currently
pending leaves the state — pending set and both confirmed counters
included — unchanged. -/
theorem mempool_dedup_and_foreign_inclusion :
    (∀ (st : NodeMempoolState) (h : String),
      h ∈ st.pending → observePending st h = st)
    ∧ (∀ (st : NodeMempoolState) (hs : List String),
      (∀ h ∈ hs, h ∉ st.pending) → processBlock st hs = st) := by
  constructor
  · intro st h hm
    simp [observePending, hm]
  · intro st hs hfor
    induction hs with
    | nil => rfl
    | cons h hs ih =>
      have h1 : confirmHash st h = st := by
        simp [confirmHash, hfor h (List.mem_cons_self h hs)]
      have h2 : ∀ x ∈ hs, x ∉ st.pending :=
        fun x hx => hfor x (List.mem_cons_of_mem h hx)
      calc processBlock st (h :: hs)
          = processBlock (confirmHash st h) hs := rfl
        _ = processBlock st hs := by rw [h1]
        _ = st := ih h2

/-- A concrete mempool state with one pending hash, satisfying the
cumulative-counter invariant. -/
def mempoolStW : NodeMempoolState :=
  { name := "el-1", pending := {"0xaa"}, new_pending_since_last := 1,
    confirmed_since_last := 0, total_seen_pending := 1, total_confirmed := 0 }

/-- Witness for C6: re-announcing the pending hash and confirming an
untracked hash both leave the concrete state unchanged. -/
theorem mempool_dedup_witness :
    observePending mempoolStW "0xaa" = mempoolStW
    ∧ processBlock mempoolStW ["0xbb"] = mempoolStW :=
  ⟨mempool_dedup_and_foreign_inclusion.1 mempoolStW "0xaa" (by decide),
   mempool_dedup_and_foreign_inclusion.2 mempoolStW ["0xbb"] (by decide)⟩

/-- C7: a snapshot returns the current interval and cumulative values,
zeroes exactly the two interval counters, leaves the pending set, the
cumulative counters and the name unchanged — and no operation of the
node state ever decreases (in particular never resets) the cumulative
counters. -/
theorem snapshot_resets_interval_only (st : NodeMempoolState) :
    ((snapshot_and_reset_interval st).1.mempool_size = st.pending.card
     ∧ (snapshot_and_reset_interval st).1.new_pending = st.new_pending_since_last
     ∧ (snapshot_and_reset_interval st).1.confirmed = st.confirmed_since_last
     ∧ (snapshot_and_reset_interval st).1.total_seen_pending = st.total_seen_pending
     ∧ (snapshot_and_reset_interval st).1.total_confirmed = st.total_confirmed)
    ∧ ((snapshot_and_reset_interval st).2
        = { st with new_pending_since_last := 0, confirmed_since_last := 0 })
    ∧ ((snapshot_and_reset_interval st).2.pending = st.pending
       ∧ (snapshot_and_reset_interval st).2.total_seen_pending = st.total_seen_pending
       ∧ (snapshot_and_reset_interval st).2.total_confirmed = st.total_confirmed
       ∧ (snapshot_and_reset_interval st).2.name = st.name)
    ∧ (∀ (st' : NodeMempoolState) (op : MempoolOp),
        st'.total_seen_pending ≤ (applyOp st' op).total_seen_pending
        ∧ st'.total_confirmed ≤ (applyOp st' op).total_confirmed) := by
  refine ⟨⟨rfl, rfl, rfl, rfl, rfl⟩, rfl, ⟨rfl, rfl, rfl, rfl⟩, applyOp_totals_mono⟩

/-- C9: the invariant `total_seen_pending = |pending| + total_confirmed`
is preserved by every operation and therefore holds in every state
reachable from the initial node state. -/
theorem mempool_seen_invariant :
    (∀ (st : NodeMempoolState) (op : MempoolOp),
      seenInvariant st → seenInvariant (applyOp st op))
    ∧ (∀ (name : String) (ops : List MempoolOp),
      seenInvariant (runOps (NodeMempoolState.init name) ops)) := by
  refine ⟨seenInvariant_applyOp, fun name ops => ?_⟩
  exact seenInvariant_runOps _ ops (by simp [seenInvariant, NodeMempoolState.init])

/-- Witness for C9: one preservation step from a concrete invariant
state, and a concrete run from the initial state. -/
theorem mempool_seen_invariant_witness :
    seenInvariant (applyOp mempoolStW (MempoolOp.observe "0xcc"))
    ∧ seenInvariant (runOps (NodeMempoolState.init "el-1")
        [MempoolOp.observe "0xdd", MempoolOp.includedBlock ["0xdd"],
         MempoolOp.snapshot]) :=
  ⟨mempool_seen_invariant.1 mempoolStW (MempoolOp.observe "0xcc") (by decide),
   mempool_seen_invariant.2 "el-1" _⟩

/-! ## Helper lemmas about the correlation table -/

theorem lookup_filter_self {E : Type} (table : List (Nat × E)) (i : Nat) :
    (table.filter fun p => p.1 != i).lookup i = none := by
  induction table with
  | nil => rfl
  | cons p table ih =>
    obtain ⟨k, v⟩ := p
    by_cases hk : k = i
    · subst hk
      simpa [List.filter_cons] using ih
    · simp only [List.filter_cons]
      have : (k != i) = true := by simp [hk]
      rw [if_pos this]
      have : (i == k) = false := by simp [Ne.symm hk]
      simp [List.lookup, this, ih]

theorem lookup_filter_other {E : Type} (table : List (Nat × E)) (i j : Nat)
    (hj : j ≠ i) :
    (table.filter fun p => p.1 != i).lookup j = table.lookup j := by
  induction table with
  | nil => rfl
  | cons p table ih =>
    obtain ⟨k, v⟩ := p
    by_cases hk : k = i
    · subst hk
      have hjk : (j == k) = false := by simp [hj]
      simp [List.filter_cons, List.lookup, hjk, ih]
    · have hkeep : (k != i) = true := by simp [hk]
      by_cases hjk : j = k
      · subst hjk
        simp [List.filter_cons, hkeep, List.lookup]
      · have hjk' : (j == k) = false := by simp [hjk]
        simp [List.filter_cons, hkeep, List.lookup, hjk', ih]

/-- C8: for an inbound message carrying an id and a result where the id
is not a reserved subscription id — if the id is in the correlation
table, its entry is dispatched with the result and removed, other
entries are untouched, and a second response with the same id finds
nothing (never double-consumed); if the id is absent, the message is
discarded silently with no state change. -/
theorem correlation_consume_once {E R : Type} (reserved : List Nat)
    (table : List (Nat × E)) (i : Nat) (r : R) (hres : i ∉ reserved) :
    (∀ e : E, table.lookup i = some e →
      (handleIdMessage reserved table i r).2 = some (e, r)
      ∧ ((handleIdMessage reserved table i r).1).lookup i = none
      ∧ (∀ j, j ≠ i →
          ((handleIdMessage reserved table i r).1).lookup j = table.lookup j)
      ∧ (∀ r' : R, handleIdMessage reserved (handleIdMessage reserved table i r).1 i r'
          = ((handleIdMessage reserved table i r).1, none)))
    ∧ (table.lookup i = none → handleIdMessage reserved table i r = (table, none)) := by
  constructor
  · intro e he
    have hmain : handleIdMessage reserved table i r
        = (table.filter fun p => p.1 != i, some (e, r)) := by
      simp [handleIdMessage, hres, he]
    refine ⟨by rw [hmain], ?_, ?_, ?_⟩
    · rw [hmain]
      exact lookup_filter_self table i
    · intro j hj
      rw [hmain]
      exact lookup_filter_other table i j hj
    · intro r'
      rw [hmain]
      simp [handleIdMessage, hres, lookup_filter_self table i]
  · intro he
    simp [handleIdMessage, hres, he]

/-- A concrete correlation table with two outstanding requests. -/
def corrTableW : List (Nat × String) := [(100, "receipt"), (101, "block")]

/-- Witness for C8 on the concrete table: id 100 is consumed exactly
once with its payload dispatched, id 101 is untouched, a replay of
id 100 is discarded, and an unknown id is discarded with no change. -/
theorem correlation_consume_once_witness :
    (handleIdMessage [1] corrTableW 100 (7 : Nat)).2 = some ("receipt", 7)
    ∧ ((handleIdMessage [1] corrTableW 100 (7 : Nat)).1).lookup 100 = none
    ∧ ((handleIdMessage [1] corrTableW 100 (7 : Nat)).1).lookup 101
        = corrTableW.lookup 101
    ∧ handleIdMessage [1] (handleIdMessage [1] corrTableW 100 (7 : Nat)).1 100 (8 : Nat)
        = ((handleIdMessage [1] corrTableW 100 (7 : Nat)).1, none)
    ∧ handleIdMessage [1] corrTableW 999 (7 : Nat) = (corrTableW, none) := by
  have h := (correlation_consume_once [1] corrTableW 100 (7 : Nat) (by decide)).1
    "receipt" (by decide)
  exact ⟨h.1, h.2.1, h.2.2.1 101 (by decide), h.2.2.2 8,
    (correlation_consume_once [1] corrTableW 999 (7 : Nat) (by decide)).2 (by decide)⟩

/-- C10: a correlated receipt response whose result is null consumes its
correlation-table entry (the id is popped before the result is
inspected) but leaves the block monitor state — `pending_receipts` and
all totals — untouched; consequently a block aggregate whose `n`
responses (one per transaction, no duplicates) include at least one null
result never completes: nothing is ever emitted and the aggregate stays
in progress. -/
theorem null_receipt_starves_block
    (bh : String) (bn : Nat) (iso : String) (sz : Option ℚ) (gu gl : Nat)
    (msgs : List (Option Receipt)) (hnull : none ∈ msgs) :
    (∀ st : BlockMonState, applyReceiptMsg st none = st)
    ∧ (∀ (E : Type) (reserved : List Nat) (table : List (Nat × E)) (i : Nat) (e : E),
        i ∉ reserved → table.lookup i = some e →
        ((handleIdMessage reserved table i (none : Option Receipt)).1).lookup i = none)
    ∧ (processReceipts (startBlock bh bn iso sz gu gl msgs.length) msgs).emitted = []
    ∧ (processReceipts (startBlock bh bn iso sz gu gl msgs.length) msgs).inProgress
        ≠ none := by
  have hne : msgs ≠ [] := List.ne_nil_of_mem hnull
  have hlen0 : msgs.length ≠ 0 := fun h => hne (List.length_eq_zero.mp h)
  have hstart : startBlock bh bn iso sz gu gl msgs.length
      = ⟨some (mkBlockAgg bh bn iso sz gu gl msgs.length), []⟩ := by
    simp [startBlock, hlen0]
  have hcnt : ((msgs.countP fun m => m.isSome) : Int)
      < (mkBlockAgg bh bn iso sz gu gl msgs.length).pending_receipts := by
    obtain ⟨l₁, l₂, rfl⟩ := List.append_of_mem hnull
    have h1 : (l₁ ++ none :: l₂).countP (fun m => m.isSome)
        = l₁.countP (fun m => m.isSome) + l₂.countP (fun m => m.isSome) := by
      simp [List.countP_append, List.countP_cons]
    have h2 : l₁.countP (fun m => m.isSome) ≤ l₁.length := List.countP_le_length _
    have h3 : l₂.countP (fun m => m.isSome) ≤ l₂.length := List.countP_le_length _
    have h4 : (l₁ ++ none :: l₂).length = l₁.length + l₂.length + 1 := by
      simp [List.length_append]
      omega
    show ((l₁ ++ none :: l₂).countP (fun m => m.isSome) : Int)
      < ((l₁ ++ none :: l₂).length : Int)
    omega
  have hrun := processReceipts_in_progress
    (mkBlockAgg bh bn iso sz gu gl msgs.length) [] msgs hcnt
  refine ⟨fun st => rfl, ?_, ?_, ?_⟩
  · intro E reserved table i e hres he
    have hmain : (handleIdMessage reserved table i (none : Option Receipt)).1
        = table.filter fun p => p.1 != i := by
      simp [handleIdMessage, hres, he]
    rw [hmain]
    exact lookup_filter_self table i
  · rw [hstart, hrun]
  · rw [hstart, hrun]
    simp

/-- Witness for C10: a two-transaction block receiving one valid and one
null receipt response emits nothing. -/
theorem null_receipt_starves_block_witness :
    (processReceipts (startBlock "0xc" 7 "t" none 100 200 2)
        [some rcptOk, none]).emitted = [] :=
  (null_receipt_starves_block "0xc" 7 "t" none 100 200 [some rcptOk, none]
    (by decide)).2.2.1

end EthNetwork
